import Mathlib

/-!
Verification development for the Precize long-document orchestration pipeline
(`preciz/agents/teaching/orchestrator.py`, `preciz/orchestrator.py`,
`preciz/cli/generate.py`, `preciz/prompts/teaching/orchestrator/__init__.py`).

Python strings are modelled as `List Char` where character-level behaviour
matters (line counting, regex-style extraction, JSON decoding) and as `String`
at the API surface.  Fallible Python code (functions that may raise) is
modelled with `Except`/`Option`.
-/

/-! ## Python string primitives -/

/-- Python `s.split("\n")`: splits on every newline, never drops empty parts.
`"".split("\n") == [""]`, so the result is always non-empty. -/
def pySplitNl : List Char → List (List Char)
  | [] => [[]]
  | c :: rest =>
    if c = '\n' then [] :: pySplitNl rest
    else
      match pySplitNl rest with
      | h :: t => (c :: h) :: t
      | [] => [[c]]

/-- Python `len(s.split("\n"))`, the line-counting convention used throughout
`AppendTool` (`orchestrator.py`). -/
def pyLines (s : List Char) : Nat :=
  (pySplitNl s).length

/-- Python `str.replace("\n", " ")` as used on the extracted outline JSON in
`DocumentOrchestrator.create_todo_list`. -/
def pyReplaceNl (s : List Char) : List Char :=
  s.map (fun c => if c = '\n' then ' ' else c)

/-- Python `range(a, b)` (step 1): the indices `a, a+1, ..., b-1`, empty when
`b ≤ a`. -/
def pyRange (a b : Nat) : List Nat :=
  List.range' a (b - a)

/-- Boolean prefix test (own definition, used by the regex models below). -/
def isPre : List Char → List Char → Bool
  | [], _ => true
  | _ :: _, [] => false
  | a :: as_, b :: bs => a = b && isPre as_ bs

/-- Boolean substring test: does `pat` occur contiguously inside `s`? -/
def hasSub (pat : List Char) : List Char → Bool
  | [] => isPre pat []
  | s@(_ :: t) => isPre pat s || hasSub pat t

/-! ## AppendTool (`preciz/agents/teaching/orchestrator.py`, lines 112-168)

The on-disk file is a `List Char`; `Option (List Char)` stands for a possibly
missing file.  `append` reads the file once before the OS write and once after
it; because the write is an external effect that another process or a crash can
corrupt, the file contents observed *after* the write are a parameter
(`fileAfter`).  An uncorrupted write produces `appendWrite fileBefore content`.
-/

/-- The bytes appended by `AppendTool.append`: the content, a terminating
newline if the content lacks one, and one blank-line spacer (`"\n"`). -/
def appendWrite (fileBefore content : List Char) : List Char :=
  fileBefore ++ content ++
    (if content.getLast? = some '\n' then [] else ['\n']) ++ ['\n']

/-- `AppendTool.append`.  `before_count`/`content_lines`/`after_count` are
`len(x.split("\n"))`.  The guard `after_count < expected_count * 0.5` (an exact
float comparison on integers in range) is modelled as
`2 * after_count < before_count + content_lines + 2`; when it trips the code
raises `IOError`, here `.error ()`.  (The constructor guarantees the file
exists, so the `FileNotFoundError` branch for a vanished file is not modelled.) -/
def appendModel (fileBefore fileAfter content : List Char) : Except Unit Nat :=
  if 2 * pyLines fileAfter < pyLines fileBefore + pyLines content + 2 then .error ()
  else .ok (pyLines fileAfter)

/-- `AppendTool.append` when the OS write succeeds untampered. -/
def appendRun (fileBefore content : List Char) : Except Unit Nat :=
  appendModel fileBefore (appendWrite fileBefore content) content

/-- `AppendTool.get_line_count`: 0 for a missing file, else
`len(read_text().split("\n"))`. -/
def getLineCount : Option (List Char) → Nat
  | none => 0
  | some s => pyLines s

/-- `AppendTool.__init__`: creates the file as empty when it does not exist. -/
def appendToolInit : Option (List Char) → List Char
  | none => []
  | some s => s

/-! ## JSON values and `json.loads`

A model of the subset of Python `json.loads` the orchestrator relies on.
Numbers are restricted to integers (the outline/review schemas only use
integer `level` values and booleans); a fraction or exponent makes the parse
fail in this model.  Strings support the single-character escapes; `\uXXXX`
is not modelled.  As in strict-mode `json.loads`, raw control characters
inside string literals are rejected. -/

inductive Json where
  | null
  | bool (b : Bool)
  | num (n : Int)
  | str (s : String)
  | arr (items : List Json)
  | obj (fields : List (String × Json))

/-- JSON inter-token whitespace accepted by `json.loads`. -/
def jsonWs (c : Char) : Bool :=
  c = ' ' || c = '\t' || c = '\n' || c = '\r'

/-- Body of a JSON string literal, after the opening quote.  Returns the
decoded characters and the remainder after the closing quote. -/
def parseStringBody : List Char → Option (List Char × List Char)
  | [] => none
  | '"' :: rest => some ([], rest)
  | '\\' :: e :: rest =>
    let c? : Option Char := match e with
      | '"' => some '"'
      | '\\' => some '\\'
      | '/' => some '/'
      | 'b' => some (Char.ofNat 8)
      | 'f' => some (Char.ofNat 12)
      | 'n' => some '\n'
      | 'r' => some '\r'
      | 't' => some '\t'
      | _ => none
    match c? with
    | none => none
    | some c =>
      match parseStringBody rest with
      | some p => some (c :: p.1, p.2)
      | none => none
  | c :: rest =>
    if c.toNat < 32 then none
    else
      match parseStringBody rest with
      | some p => some (c :: p.1, p.2)
      | none => none

def digitsToNat (ds : List Char) : Nat :=
  ds.foldl (fun n c => 10 * n + (c.toNat - 48)) 0

/-- JSON number literal, restricted to integers (no fraction/exponent). -/
def parseNumber (s : List Char) : Option (Int × List Char) :=
  let p : Bool × List Char := match s with
    | '-' :: r => (true, r)
    | _ => (false, s)
  let q := p.2.span Char.isDigit
  match q.1 with
  | [] => none
  | d :: ds =>
    if d = '0' ∧ ds ≠ [] then none
    else
      match q.2 with
      | '.' :: _ => none
      | 'e' :: _ => none
      | 'E' :: _ => none
      | r =>
        some (if p.1 then -(digitsToNat (d :: ds) : Int) else (digitsToNat (d :: ds) : Int), r)

mutual

/-- One JSON value, fuel-bounded recursive descent. -/
def parseValue : Nat → List Char → Option (Json × List Char)
  | 0, _ => none
  | Nat.succ f, s =>
    match s.dropWhile jsonWs with
    | 'n' :: 'u' :: 'l' :: 'l' :: r => some (.null, r)
    | 't' :: 'r' :: 'u' :: 'e' :: r => some (.bool true, r)
    | 'f' :: 'a' :: 'l' :: 's' :: 'e' :: r => some (.bool false, r)
    | '"' :: r => (parseStringBody r).map fun p => (.str ⟨p.1⟩, p.2)
    | '[' :: r => parseArrayBody f r
    | '{' :: r => parseObjectBody f r
    | r => (parseNumber r).map fun p => (.num p.1, p.2)

/-- Array items after `[`. -/
def parseArrayBody : Nat → List Char → Option (Json × List Char)
  | 0, _ => none
  | Nat.succ f, s =>
    match s.dropWhile jsonWs with
    | ']' :: r => some (.arr [], r)
    | s' =>
      (parseValue f s').bind fun p =>
        (parseArrayTail f p.2).map fun q => (.arr (p.1 :: q.1), q.2)

/-- `, value`* `]` after the first array item. -/
def parseArrayTail : Nat → List Char → Option (List Json × List Char)
  | 0, _ => none
  | Nat.succ f, s =>
    match s.dropWhile jsonWs with
    | ',' :: r =>
      (parseValue f r).bind fun p =>
        (parseArrayTail f p.2).map fun q => (p.1 :: q.1, q.2)
    | ']' :: r => some ([], r)
    | _ => none

/-- Object members after `{`. -/
def parseObjectBody : Nat → List Char → Option (Json × List Char)
  | 0, _ => none
  | Nat.succ f, s =>
    match s.dropWhile jsonWs with
    | '}' :: r => some (.obj [], r)
    | '"' :: r =>
      (parseStringBody r).bind fun pk =>
        match pk.2.dropWhile jsonWs with
        | ':' :: r2 =>
          (parseValue f r2).bind fun pv =>
            (parseObjectTail f pv.2).map fun q =>
              (.obj ((⟨pk.1⟩, pv.1) :: q.1), q.2)
        | _ => none
    | _ => none

/-- `, "key": value`* `}` after the first object member. -/
def parseObjectTail : Nat → List Char → Option (List (String × Json) × List Char)
  | 0, _ => none
  | Nat.succ f, s =>
    match s.dropWhile jsonWs with
    | ',' :: r =>
      (match r.dropWhile jsonWs with
        | '"' :: r1 =>
          (parseStringBody r1).bind fun pk =>
            match pk.2.dropWhile jsonWs with
            | ':' :: r2 =>
              (parseValue f r2).bind fun pv =>
                (parseObjectTail f pv.2).map fun q =>
                  ((⟨pk.1⟩, pv.1) :: q.1, q.2)
            | _ => none
        | _ => none)
    | '}' :: r => some ([], r)
    | _ => none

end

/-- Python `json.loads` on a character list: one value, optionally surrounded
by whitespace, nothing else. -/
def jsonLoads (s : List Char) : Option Json :=
  match parseValue (2 * s.length + 2) s with
  | none => none
  | some (v, r) => if r.dropWhile jsonWs = [] then some v else none

/-- Python `d.get(key, default)` on a parsed JSON object (last duplicate key
wins, as in `json.loads`); returns `default` when the key is absent. -/
def jsonGet (j : Json) (key : String) (d : Json) : Json :=
  match j with
  | .obj kvs => kvs.foldl (fun acc kv => if kv.1 = key then kv.2 else acc) d
  | _ => d

/-- Python `d[key]` on a parsed JSON object: `none` models the `KeyError`
(also raised when the value is not a dict at all). -/
def jsonGetOpt (j : Json) (key : String) : Option Json :=
  match j with
  | .obj kvs => kvs.foldl (fun acc kv => if kv.1 = key then some kv.2 else acc) none
  | _ => none

/-- Python truthiness of a JSON-decoded value (`if feedback.get("passed", True)`). -/
def pyTruthy : Json → Bool
  | .null => false
  | .bool b => b
  | .num n => n ≠ 0
  | .str s => s ≠ ""
  | .arr items => ¬items.isEmpty
  | .obj fields => ¬fields.isEmpty

/-! ## Regex-style JSON extraction

Models of the three `re.search` patterns used on model responses.  All inputs
the code runs them on are plain text, so the ASCII fragment of Python `\s` is
used. -/

/-- ASCII fragment of Python regex `\s`. -/
def reWs (c : Char) : Bool :=
  c = ' ' || c = '\t' || c = '\n' || c = '\r' || c = '\x0b' || c = '\x0c'

def fence3 : List Char := ['`', '`', '`']

def fenceJson7 : List Char := ['`', '`', '`', 'j', 's', 'o', 'n']

/-- Does `\s*` followed by a literal ``` ``` ``` match at `s`?  (The
continuation test of the non-greedy group in pattern
``` ```json\s*\n?(\{.*?\})\s*``` ```.) -/
def fenceFollows (s : List Char) : Bool :=
  isPre fence3 (s.dropWhile reWs)

/-- Non-greedy `\{.*?\}` followed by `\s*` ``` ``` ```: starting after the
opening brace, extend the group to the *first* `}` whose continuation matches;
`acc` holds the group read so far, reversed. -/
def grabGroup : List Char → List Char → Option (List Char)
  | _, [] => none
  | acc, c :: rest =>
    if c = '}' ∧ fenceFollows rest then some (acc.reverse ++ ['}'])
    else grabGroup (c :: acc) rest

/-- After a literal ```` ```json ````: `\s*\n?` then the group `(\{.*?\})`.
Since `\s` already absorbs newlines and the group must start with `{`
(never a whitespace character), this is: skip whitespace, require `{`. -/
def tryFenceAnchor (s : List Char) : Option (List Char) :=
  match s.dropWhile reWs with
  | '{' :: rest => grabGroup ['{'] rest
  | _ => none

/-- `re.search(r"```json\s*\n?(\{.*?\})\s*```", text, re.DOTALL)`: try every
occurrence of the anchor literal left to right, returning the first group a
successful match captures. -/
def findFencedJson : List Char → Option (List Char)
  | [] => none
  | s@(_ :: t) =>
    if isPre fenceJson7 s then
      match tryFenceAnchor (s.drop 7) with
      | some g => some g
      | none => findFencedJson t
    else findFencedJson t

/-- The prefix of `s` that ends at the last `}` of `s` (present iff `s`
contains a `}`). -/
def takeToLastRBrace (s : List Char) : Option (List Char) :=
  match s.reverse.dropWhile (fun c => ¬(c = '}')) with
  | [] => none
  | r => some r.reverse

/-- `re.search(r"\{.*\}", text, re.DOTALL)`: the greedy span from the first
`{` (that has a `}` somewhere after it) to the last `}` of the text. -/
def braceSpan : List Char → Option (List Char)
  | [] => none
  | c :: rest =>
    if c = '{' then
      match takeToLastRBrace rest with
      | some pre => some ('{' :: pre)
      | none => braceSpan rest
    else braceSpan rest

/-- Group matcher for pattern `` ``(\{.*?\})``` `` (no `\s*` before the close):
first `}` immediately followed by ``` ``` ```. -/
def grabGroupTight : List Char → List Char → Option (List Char)
  | _, [] => none
  | acc, c :: rest =>
    if c = '}' ∧ isPre fence3 rest then some (acc.reverse ++ ['}'])
    else grabGroupTight (c :: acc) rest

/-- `re.search(r"``(\{.*?\})```", text, re.DOTALL)` (the CLI's second
code-block pattern): a literal `` `` `` immediately followed by the group. -/
def findFenceTight : List Char → Option (List Char)
  | [] => none
  | s@(_ :: t) =>
    if isPre ['`', '`'] s then
      (match s.drop 2 with
        | '{' :: rest =>
          match grabGroupTight ['{'] rest with
          | some g => some g
          | none => findFenceTight t
        | _ => findFenceTight t)
    else findFenceTight t

def nonBrace (c : Char) : Bool :=
  ¬(c = '{') && ¬(c = '}')

/-- Matcher for `\{[^{}]*(?:\{[^{}]*\}[^{}]*)*\}` anchored after an opening
`{`:  alternating non-brace chunks and single-depth `{...}` pairs, closed by a
final `}`.  `acc` is the match so far (in order, including the opening `{`);
fuel-bounded (each step consumes at least one character). -/
def depth1Loop : Nat → List Char → List Char → Option (List Char)
  | 0, _, _ => none
  | Nat.succ f, acc, rest =>
    let p := rest.span nonBrace
    match p.2 with
    | '}' :: _ => some (acc ++ p.1 ++ ['}'])
    | '{' :: rest2 =>
      let p2 := rest2.span nonBrace
      (match p2.2 with
        | '}' :: rest4 => depth1Loop f (acc ++ p.1 ++ '{' :: p2.1 ++ ['}']) rest4
        | _ => none)
    | _ => none

/-- `re.search(r"\{[^{}]*(?:\{[^{}]*\}[^{}]*)*\}", text, re.DOTALL)` (the
CLI's raw-JSON fallback pattern, which only tolerates one level of brace
nesting): leftmost start that matches wins. -/
def depth1Search : List Char → Option (List Char)
  | [] => none
  | c :: rest =>
    if c = '{' then
      match depth1Loop (rest.length + 1) ['{'] rest with
      | some g => some g
      | none => depth1Search rest
    else depth1Search rest

/-! ## BlockTask and the outline builders

`BlockTask` (`preciz/agents/teaching/orchestrator.py`, lines 352-364).  The
outline fields come straight out of decoded JSON without type validation in
Python, so they are modelled as `Json` values; `completed`, `content` and
`summary` are only ever assigned native values by the pipeline. -/

structure BlockTask where
  title : Json
  description : Json := Json.str ""
  level : Json := Json.num 1
  require_mermaid : Json := Json.bool false
  require_table : Json := Json.bool false
  require_examples : Json := Json.bool true
  completed : Bool := false
  content : String := ""
  summary : String := ""

/-- One entry of the outline's `sections` array turned into a `BlockTask`
(`BlockTask(title=section["title"], description=section.get("description", ""),
...)`).  `none` models the `KeyError`/`TypeError` raised when the entry is not
an object or lacks `"title"`. -/
def taskOfSection (item : Json) : Option BlockTask :=
  match jsonGetOpt item "title" with
  | none => none
  | some t =>
    some { title := t,
           description := jsonGet item "description" (.str ""),
           level := jsonGet item "level" (.num 1),
           require_mermaid := jsonGet item "require_mermaid" (.bool false),
           require_table := jsonGet item "require_table" (.bool false),
           require_examples := jsonGet item "require_examples" (.bool true) }

/-- `for section in data.get("sections", []): tasks.append(BlockTask(...))`.
`none` models the exception raised when `sections` is not a list or one entry
is unusable. -/
def tasksFromData (data : Json) : Option (List BlockTask) :=
  match jsonGet data "sections" (.arr []) with
  | .arr items => items.mapM taskOfSection
  | _ => none

/-- `DocumentOrchestrator.create_todo_list`
(`preciz/agents/teaching/orchestrator.py`, lines 453-494), applied to the
model response text: fenced-block extraction first, then the greedy brace
span; `ValueError`/`json.JSONDecodeError`/section conversion errors are
`.error ()`. -/
def createTodoListFromResponse (response : List Char) : Except Unit (List BlockTask) :=
  let jsonStr? : Option (List Char) :=
    match findFencedJson response with
    | some g => some g
    | none => braceSpan response
  match jsonStr? with
  | none => .error ()
  | some js =>
    match jsonLoads (pyReplaceNl js) with
    | none => .error ()
    | some data =>
      match tasksFromData data with
      | none => .error ()
      | some ts => .ok ts

/-- `create_llm_todo_list` (`preciz/cli/generate.py`, lines 104-248), applied
to the model response: pattern ``` ```json\s*\n?(\{.*?\})\s*``` ```, then
`` ``(\{.*?\})``` ``, then the depth-1 brace pattern; no newline replacement
before `json.loads`.  All failure paths raise (`ValueError` or the re-raised
decode/convert exception), hence `.error ()`. -/
def createLlmTodoListFromResponse (response : List Char) : Except Unit (List BlockTask) :=
  let jsonStr? : Option (List Char) :=
    match findFencedJson response with
    | some g => some g
    | none =>
      match findFenceTight response with
      | some g => some g
      | none => depth1Search response
  match jsonStr? with
  | none => .error ()
  | some js =>
    match jsonLoads js with
    | none => .error ()
    | some data =>
      match tasksFromData data with
      | none => .error ()
      | some ts => .ok ts

/-- `create_llm_todo_list` including the transport call: a raised transport
error (`orchestrator.llm.complete`) propagates. -/
def createLlmTodoList (llmResponse : Except Unit String) : Except Unit (List BlockTask) :=
  match llmResponse with
  | .error e => .error e
  | .ok r => createLlmTodoListFromResponse r.data

/-- `create_parts_todo_list` (`preciz/cli/generate.py`, lines 251-277): the
deterministic numbered-parts outline, no model call. -/
def createPartsTodoList (topic : String) (targetLines : Nat) (numParts : Option Nat) :
    List BlockTask :=
  let numSections : Nat :=
    match numParts with
    | some p => max 1 p
    | none => max 5 (targetLines / 150)
  (pyRange 1 (numSections + 1)).map fun i =>
    { title := .str (topic ++ " - Part " ++ toString i),
      description := .str ("Part " ++ toString i ++ " of " ++ topic),
      level := .num 1,
      require_mermaid := .bool (i % 3 = 0),
      require_table := .bool (i % 2 = 0),
      require_examples := .bool true }

/-- The `else: # auto mode` branch of `main` (`preciz/cli/generate.py`, lines
421-430): try the LLM outline; on any raised exception fall back to parts
mode.  Note that an LLM outline that *returns* normally — even with zero
sections — is used as-is. -/
def autoModeTasks (llmOutcome : Except Unit (List BlockTask))
    (topic : String) (targetLines : Nat) (numParts : Option Nat) : List BlockTask :=
  match llmOutcome with
  | .ok ts => ts
  | .error _ => createPartsTodoList topic targetLines numParts

/-- `if not tasks: ... return 1` (`preciz/cli/generate.py`, lines 432-435):
an empty task list aborts the run with exit code 1 before any generation. -/
def proceedWithTasks (tasks : List BlockTask) : Except Unit (List BlockTask) :=
  if tasks.isEmpty then .error () else .ok tasks

/-! ## ReviewTool / ImproveTool and the review-improve loop

`ReviewTool.review` and `review_with_preferences`
(`preciz/agents/teaching/orchestrator.py`, lines 171-241) share the same
response handling, differing only in prompt construction; the model call is
abstracted as an oracle from the reviewed content to the raw response text
(the prompt embeds the content and title, which determine the request). -/

/-- The fail-open fallback `{"passed": True, "issues": [], "suggestions": []}`. -/
def fallbackReview : Json :=
  Json.obj [("passed", Json.bool true), ("issues", Json.arr []), ("suggestions", Json.arr [])]

/-- The parse step of `ReviewTool.review`: `re.search(r"\{.*\}", ...)` then
`json.loads`; `none` when there is no match or decoding raises. -/
def reviewParse (response : String) : Option Json :=
  match braceSpan response.data with
  | none => none
  | some span => jsonLoads span

/-- `ReviewTool.review` applied to the raw model response: the parsed JSON
object, or the fail-open fallback.  Total — the only raising operation
(`json.loads`) is wrapped in `try/except`. -/
def reviewResult (response : String) : Json :=
  match reviewParse response with
  | none => fallbackReview
  | some j => j

/-- `ImproveTool.improve` (`preciz/agents/teaching/orchestrator.py`, lines
250-276) with the model call abstracted as an oracle from (feedback, content)
to the response; returns the new content and the number of model calls made.
`if feedback.get("passed", True): return content` issues no call. -/
def improveResult (improveOracle : Json → String → String)
    (feedback : Json) (content : String) : String × Nat :=
  if pyTruthy (jsonGet feedback "passed" (.bool true)) then (content, 0)
  else (improveOracle feedback content, 1)

/-- The per-section review-improve loop of
`DocumentOrchestrator.generate_document` (lines 582-592):
`for iteration in range(max_iterations): feedback = review(...);
if passed: break; else content = improve(...)`.
`reviewOracle` maps the content under review to the reviewer's raw response.
Returns the final content and the list of feedback values passed to the
improver (one entry per improver invocation, in order). -/
def reviewImproveLoop (reviewOracle : String → String)
    (improveOracle : Json → String → String) :
    Nat → String → String × List Json
  | 0, content => (content, [])
  | Nat.succ n, content =>
    let feedback := reviewResult (reviewOracle content)
    if pyTruthy (jsonGet feedback "passed" (.bool true)) then (content, [])
    else
      let content2 := (improveResult improveOracle feedback content).1
      let r := reviewImproveLoop reviewOracle improveOracle n content2
      (r.1, feedback :: r.2)

/-! ## Context insertion in the section-generation prompts

Only the context interpolation of each prompt template is modelled; the fixed
template text around it does not affect the claims. -/

/-- `{context[-800:] if len(context) > 800 else context}` in
`build_generate_section_prompt`
(`preciz/prompts/teaching/orchestrator/__init__.py`, line 37). -/
def generateSectionContext (context : List Char) : List Char :=
  if 800 < context.length then context.drop (context.length - 800) else context

/-- `{context[-500:] if len(context) > 500 else context}` in the legacy
`GenerateTool.generate` (`preciz/orchestrator.py`, line 78). -/
def generateSectionContextLegacy (context : List Char) : List Char :=
  if 500 < context.length then context.drop (context.length - 500) else context

/-- `{context if context else ""}` in
`build_generate_section_prompt_with_preferences`
(`preciz/prompts/teaching/orchestrator/__init__.py`, line 361): the context is
interpolated unmodified (no character cap). -/
def generateSectionContextPrefs (context : List Char) : List Char :=
  if context.isEmpty then [] else context

/-! ## The generate_document task loop

`DocumentOrchestrator.generate_document`
(`preciz/agents/teaching/orchestrator.py`, lines 496-620).  The loop
`for i in range(state.current_task_index, len(state.tasks))` generates,
reviews and appends one section per index.  For the resume/persistence claims
only the observable control flow is tracked: which section indices are
appended to the document (in order), which task objects are marked completed,
and after which indices `state.save` runs.  Content generation inside an
iteration does not influence any of these. -/

structure RunTrace where
  tasks : List BlockTask
  /-- Section indices appended to the output document by this run, in order. -/
  doc : List Nat
  /-- Loop indices `i` after which `state.save(state_file)` ran. -/
  saves : List Nat
  currentTaskIndex : Nat

/-- Replace the element at index `i` (no-op out of bounds), modelling in-place
mutation of `state.tasks[i]`. -/
def modifyNth (f : BlockTask → BlockTask) : Nat → List BlockTask → List BlockTask
  | _, [] => []
  | 0, a :: t => f a :: t
  | Nat.succ n, a :: t => a :: modifyNth f n t

/-- `task.completed = True` (the loop never assigns `task.content`). -/
def markCompleted (t : BlockTask) : BlockTask :=
  { t with completed := true }

/-- One iteration of the task loop at index `i` (`n = len(state.tasks)`):
append the section, mark the task completed, advance the cursor, and save
when `state_file and (i % 5 == 0 or i == len(state.tasks) - 1)`. -/
def generateStep (hasStateFile : Bool) (n : Nat) (tr : RunTrace) (i : Nat) : RunTrace :=
  { tasks := modifyNth markCompleted i tr.tasks,
    doc := tr.doc ++ [i],
    saves :=
      if hasStateFile ∧ (i % 5 = 0 ∨ i = n - 1) then tr.saves ++ [i] else tr.saves,
    currentTaskIndex := i + 1 }

/-- The whole task loop, starting from a (possibly resumed) state whose task
list is `tasks` and whose cursor is `current_task_index = k`. -/
def generateDocumentFrom (hasStateFile : Bool) (tasks : List BlockTask) (k : Nat) : RunTrace :=
  (pyRange k tasks.length).foldl (generateStep hasStateFile tasks.length)
    { tasks := tasks, doc := [], saves := [], currentTaskIndex := k }

/-! ## Shared concrete fixtures -/

/-- A minimal task (only `title` is mandatory in `BlockTask`). -/
def demoTask (s : String) : BlockTask :=
  { title := Json.str s }

def demoTasks3 : List BlockTask :=
  [demoTask "A", demoTask "B", demoTask "C"]

/-- The opening fence a model reply wraps its outline JSON in: ```` ```json ````
followed by a newline. -/
def fenceOpen : List Char := ['`', '`', '`', 'j', 's', 'o', 'n', '\n']

/-- The closing fence: a newline followed by ``` ``` ```. -/
def fenceClose : List Char := ['\n', '`', '`', '`']

/-! ### Line-count lemmas -/

theorem pySplitNl_ne_nil (s : List Char) : pySplitNl s ≠ [] := by
  induction s with
  | nil => simp [pySplitNl]
  | cons c rest ih =>
    simp only [pySplitNl]
    split
    · simp
    · cases h : pySplitNl rest with
      | nil => exact absurd h ih
      | cons a t => simp

theorem pyLines_eq_count (s : List Char) : pyLines s = s.count '\n' + 1 := by
  induction s with
  | nil => simp [pyLines, pySplitNl]
  | cons c rest ih =>
    by_cases hc : c = '\n'
    · subst hc
      simp [pyLines, pySplitNl, List.count_cons] at *
      omega
    · simp only [pyLines, pySplitNl, if_neg hc] at *
      cases h : pySplitNl rest with
      | nil => exact absurd h (pySplitNl_ne_nil rest)
      | cons a t =>
        rw [h] at ih
        simp only [List.length_cons] at *
        rw [List.count_cons]
        simp [hc, ih]

theorem count_appendWrite (fileBefore content : List Char) :
    (appendWrite fileBefore content).count '\n' =
      fileBefore.count '\n' + content.count '\n' +
        (if content.getLast? = some '\n' then 1 else 2) := by
  unfold appendWrite
  split <;> simp [List.count_append] <;> omega

theorem getLast_nl_mem {content : List Char}
    (h : content.getLast? = some '\n') : '\n' ∈ content := by
  cases content with
  | nil => simp at h
  | cons a t =>
    have hg := List.getLast?_eq_getLast (a :: t) (by simp)
    rw [hg, Option.some.injEq] at h
    have hmem := List.getLast_mem (l := a :: t) (by simp)
    rw [h] at hmem
    exact hmem

/-! ## Helper lemmas about the append path and the task loop -/

theorem pyLines_appendWrite (fileBefore content : List Char) :
    pyLines (appendWrite fileBefore content) =
      pyLines fileBefore + content.count '\n' +
        (if content.getLast? = some '\n' then 1 else 2) := by
  rw [pyLines_eq_count, count_appendWrite, pyLines_eq_count]
  omega

theorem appendWrite_growth (fileBefore content : List Char) :
    pyLines content + 2 ≤
      2 * (pyLines (appendWrite fileBefore content) - pyLines fileBefore) := by
  have hw := pyLines_appendWrite fileBefore content
  have hc := pyLines_eq_count content
  by_cases hend : content.getLast? = some '\n'
  · have hmem : 0 < content.count '\n' :=
      List.count_pos_iff.mpr (getLast_nl_mem hend)
    rw [if_pos hend] at hw
    omega
  · rw [if_neg hend] at hw
    omega

/-- An uncorrupted append never trips the truncation detector and returns the
post-write line count. -/
theorem appendRun_ok (fileBefore content : List Char) :
    appendRun fileBefore content = .ok (pyLines (appendWrite fileBefore content)) := by
  have hg := appendWrite_growth fileBefore content
  have hb := pyLines_eq_count fileBefore
  rw [appendRun, appendModel, if_neg]
  omega

theorem modifyNth_getElem?_ne (f : BlockTask → BlockTask) :
    ∀ (i j : Nat) (l : List BlockTask), i ≠ j → (modifyNth f i l)[j]? = l[j]?
  | _, _, [], _ => by simp [modifyNth]
  | 0, j, a :: t, h => by
    cases j with
    | zero => exact absurd rfl h
    | succ m => simp [modifyNth]
  | Nat.succ n, j, a :: t, h => by
    cases j with
    | zero => simp [modifyNth]
    | succ m =>
      simp only [modifyNth, List.getElem?_cons_succ]
      exact modifyNth_getElem?_ne f n m t (by omega)

theorem modifyNth_getElem?_self (f : BlockTask → BlockTask) :
    ∀ (i : Nat) (l : List BlockTask), (modifyNth f i l)[i]? = (l[i]?).map f
  | _, [] => by simp [modifyNth]
  | 0, a :: t => by simp [modifyNth]
  | Nat.succ n, a :: t => by
    simp only [modifyNth, List.getElem?_cons_succ]
    exact modifyNth_getElem?_self f n t

theorem runFold_doc (hs : Bool) (n : Nat) :
    ∀ (l : List Nat) (tr : RunTrace),
      (l.foldl (generateStep hs n) tr).doc = tr.doc ++ l
  | [], tr => by simp
  | a :: t, tr => by
    rw [List.foldl_cons, runFold_doc hs n t]
    simp [generateStep]

theorem runFold_saves_mem (hs : Bool) (n : Nat) :
    ∀ (l : List Nat) (tr : RunTrace) (j : Nat),
      (j ∈ (l.foldl (generateStep hs n) tr).saves ↔
        j ∈ tr.saves ∨ (hs = true ∧ j ∈ l ∧ (j % 5 = 0 ∨ j = n - 1)))
  | [], tr, j => by simp
  | a :: t, tr, j => by
    rw [List.foldl_cons, runFold_saves_mem hs n t]
    simp only [generateStep]
    by_cases hcond : hs = true ∧ (a % 5 = 0 ∨ a = n - 1)
    · rw [if_pos hcond]
      simp only [List.mem_append, List.mem_singleton, List.mem_cons,
        List.not_mem_nil, or_false]
      constructor
      · rintro ((h | h) | ⟨hh, hm, hc⟩)
        · exact Or.inl h
        · subst h
          exact Or.inr ⟨hcond.1, Or.inl rfl, hcond.2⟩
        · exact Or.inr ⟨hh, Or.inr hm, hc⟩
      · rintro (h | ⟨hh, (h | h), hc⟩)
        · exact Or.inl (Or.inl h)
        · subst h
          exact Or.inl (Or.inr rfl)
        · exact Or.inr ⟨hh, h, hc⟩
    · rw [if_neg hcond]
      simp only [List.mem_cons]
      constructor
      · rintro (h | ⟨hh, hm, hc⟩)
        · exact Or.inl h
        · exact Or.inr ⟨hh, Or.inr hm, hc⟩
      · rintro (h | ⟨hh, (h | h), hc⟩)
        · exact Or.inl h
        · subst h
          exact absurd ⟨hh, hc⟩ hcond
        · exact Or.inr ⟨hh, h, hc⟩

theorem runFold_tasks_notin (hs : Bool) (n : Nat) :
    ∀ (l : List Nat) (tr : RunTrace) (j : Nat), (∀ i ∈ l, i ≠ j) →
      ((l.foldl (generateStep hs n) tr).tasks)[j]? = tr.tasks[j]?
  | [], tr, j, _ => by simp
  | a :: t, tr, j, h => by
    rw [List.foldl_cons, runFold_tasks_notin hs n t _ j (fun i hi => h i (List.mem_cons_of_mem a hi))]
    simp only [generateStep]
    exact modifyNth_getElem?_ne markCompleted a j tr.tasks (h a (List.mem_cons_self a t))

theorem runFold_tasks_range (hs : Bool) (n : Nat) :
    ∀ (m k : Nat) (tr : RunTrace) (j : Nat), k ≤ j → j < k + m →
      ((List.range' k m).foldl (generateStep hs n) tr).tasks[j]? =
        (tr.tasks[j]?).map markCompleted
  | 0, k, tr, j, h1, h2 => by omega
  | Nat.succ m, k, tr, j, h1, h2 => by
    rw [List.range'_succ k m 1, List.foldl_cons]
    by_cases hj : j = k
    · subst hj
      rw [runFold_tasks_notin hs n _ _ j
        (fun i hi => by
          have := (List.mem_range'_1).mp hi
          omega)]
      simp only [generateStep]
      exact modifyNth_getElem?_self markCompleted j tr.tasks
    · rw [runFold_tasks_range hs n m (k + 1) _ j (by omega) (by omega)]
      simp only [generateStep]
      rw [modifyNth_getElem?_ne markCompleted k j tr.tasks (by omega)]

/-! ## Claim theorems -/

/-- **C1** (corrected): the durability guard of `AppendTool.append` compares
the *absolute* post-write line count against half of
`before_count + lines(content) + 2`, not the observed *growth* against half
of the expected growth.  Here the file held 100 lines before the append, the
content spans 10 lines, and the file observed after the write holds only 60
lines — the line count *shrank* by 40, far below the claimed minimum growth of
`0.5 * (10 + 2) = 6` — yet `append` returns `60` instead of raising, because
`2 * 60 = 120 ≥ 100 + 10 + 2 = 112`. -/
theorem c1_growth_check_counterexample :
    appendModel (List.replicate 99 '\n') (List.replicate 59 '\n') (List.replicate 9 '\n')
      = .ok 60
    ∧ pyLines (List.replicate 99 '\n') = 100
    ∧ pyLines (List.replicate 9 '\n') = 10
    ∧ pyLines (List.replicate 59 '\n') = 60 :=
  ⟨rfl, rfl, rfl, rfl⟩

/-- **C1** (amended): an uncorrupted `AppendTool.append` grows the line count
by at least `0.5 * (lines(content) + 2)` and returns the new total without
raising; and the durability `IOError` is raised exactly when twice the
post-write line count is below `before_count + lines(content) + 2` — i.e. the
detector halves the expected *total*, not the expected *growth*. -/
theorem c1_append_durability_amended (fileBefore content fileAfter : List Char) :
    appendRun fileBefore content = .ok (pyLines (appendWrite fileBefore content))
    ∧ pyLines content + 2 ≤
        2 * (pyLines (appendWrite fileBefore content) - pyLines fileBefore)
    ∧ (appendModel fileBefore fileAfter content = .error ()
        ↔ 2 * pyLines fileAfter < pyLines fileBefore + pyLines content + 2) := by
  refine ⟨appendRun_ok fileBefore content, appendWrite_growth fileBefore content, ?_⟩
  by_cases h : 2 * pyLines fileAfter < pyLines fileBefore + pyLines content + 2
  · rw [appendModel, if_pos h]
    simp [h]
  · rw [appendModel, if_neg h]
    simp [h]

/-- **C10** (confirmed): `AppendTool.get_line_count` returns 0 for a missing
file, and for an existing file returns the number of newline characters plus
one — in particular 1 for the empty file the constructor creates — and the
total returned by an (uncorrupted) `append` uses the same counting, so the
reported counts are one greater than the number of newline-terminated lines. -/
theorem c10_line_count_semantics :
    getLineCount none = 0
    ∧ (∀ s : List Char, getLineCount (some s) = s.count '\n' + 1)
    ∧ getLineCount (some (appendToolInit none)) = 1
    ∧ (∀ fileBefore content : List Char,
        appendRun fileBefore content
          = .ok (getLineCount (some (appendWrite fileBefore content)))) := by
  refine ⟨rfl, fun s => pyLines_eq_count s, rfl, fun f c => appendRun_ok f c⟩

/-- **C2** (confirmed): resuming `generate_document` from a state with
`current_task_index = k` processes exactly the indices `k .. len(tasks)-1` in
order: nothing below `k` is re-appended or modified, and the number of
sections appended equals `len(tasks) - k`. -/
theorem c2_resume_processes_only_suffix (hasStateFile : Bool)
    (tasks : List BlockTask) (k : Nat) :
    (generateDocumentFrom hasStateFile tasks k).doc = pyRange k tasks.length
    ∧ (generateDocumentFrom hasStateFile tasks k).doc.length = tasks.length - k
    ∧ (∀ i, i ∈ (generateDocumentFrom hasStateFile tasks k).doc → k ≤ i)
    ∧ (∀ i, i < k →
        i ∉ (generateDocumentFrom hasStateFile tasks k).doc
        ∧ ((generateDocumentFrom hasStateFile tasks k).tasks)[i]? = tasks[i]?) := by
  have hdoc : (generateDocumentFrom hasStateFile tasks k).doc = pyRange k tasks.length := by
    rw [generateDocumentFrom, runFold_doc]
    simp
  refine ⟨hdoc, ?_, ?_, ?_⟩
  · rw [hdoc, pyRange, List.length_range' k 1 (tasks.length - k)]
  · intro i hi
    rw [hdoc] at hi
    exact ((List.mem_range'_1).mp hi).1
  · intro i hik
    constructor
    · rw [hdoc]
      intro hmem
      have := (List.mem_range'_1).mp hmem
      omega
    · rw [generateDocumentFrom]
      exact runFold_tasks_notin hasStateFile tasks.length _ _ i
        (fun x hx => by
          have := (List.mem_range'_1).mp hx
          omega)

/-- Closed witness for C2 at a concrete resumed state (`k = 1`, three tasks):
index 0 is below the cursor and is neither re-appended nor touched. -/
theorem c2_resume_witness :
    (0 : Nat) < 1
    ∧ 0 ∉ (generateDocumentFrom true demoTasks3 1).doc
    ∧ ((generateDocumentFrom true demoTasks3 1).tasks)[0]? = demoTasks3[0]?
    ∧ (generateDocumentFrom true demoTasks3 1).doc.length = 2 :=
  ⟨by decide,
   ((c2_resume_processes_only_suffix true demoTasks3 1).2.2.2 0 (by decide)).1,
   ((c2_resume_processes_only_suffix true demoTasks3 1).2.2.2 0 (by decide)).2,
   (c2_resume_processes_only_suffix true demoTasks3 1).2.1⟩

/-- **C4** (corrected): in a three-task run with a state file, the state is
saved after task 0 (`0 % 5 == 0`) and after task 2 (the last), but *not*
after task 1 even though task 1 completed and was appended — the claim that
the state is serialized after *every* completed task is false. -/
theorem c4_save_every_task_counterexample :
    (generateDocumentFrom true demoTasks3 0).doc = [0, 1, 2]
    ∧ (generateDocumentFrom true demoTasks3 0).saves = [0, 2]
    ∧ 1 ∉ (generateDocumentFrom true demoTasks3 0).saves :=
  ⟨rfl, rfl, by decide⟩

/-- **C4** (amended): with a state file, `generate_document` saves the state
after task `i` exactly when `i % 5 == 0` or `i` is the last task; hence
within any window of five consecutive processed tasks at least one save
occurs (so a crash can lose up to four completed tasks plus the in-flight
one, not at most the in-flight task). -/
theorem c4_periodic_save_amended (tasks : List BlockTask) (k : Nat) :
    (∀ i, i ∈ (generateDocumentFrom true tasks k).saves ↔
        (i ∈ pyRange k tasks.length ∧ (i % 5 = 0 ∨ i = tasks.length - 1)))
    ∧ (∀ i, k ≤ i → i < tasks.length →
        ∃ j, j ∈ (generateDocumentFrom true tasks k).saves ∧ i ≤ j ∧ j < i + 5) := by
  have hmem : ∀ i, i ∈ (generateDocumentFrom true tasks k).saves ↔
      (i ∈ pyRange k tasks.length ∧ (i % 5 = 0 ∨ i = tasks.length - 1)) := by
    intro i
    rw [generateDocumentFrom, runFold_saves_mem]
    simp only [List.not_mem_nil, false_or, true_and, pyRange]
  refine ⟨hmem, ?_⟩
  intro i hk hn
  by_cases hmul : 5 * ((i + 4) / 5) < tasks.length
  · refine ⟨5 * ((i + 4) / 5), ?_, by omega, by omega⟩
    rw [hmem, pyRange, List.mem_range'_1]
    omega
  · refine ⟨tasks.length - 1, ?_, by omega, by omega⟩
    rw [hmem, pyRange, List.mem_range'_1]
    omega

/-- Closed witness for C4 (amended) on a concrete seven-task run: the save
after task 6 (the last) covers the window starting at task 3. -/
theorem c4_periodic_save_witness :
    ((5 : Nat) ∈ (generateDocumentFrom true (demoTasks3 ++ demoTasks3 ++ demoTasks3) 0).saves
        ↔ (5 ∈ pyRange 0 9 ∧ ((5 : Nat) % 5 = 0 ∨ (5 : Nat) = 9 - 1)))
    ∧ (∃ j, j ∈ (generateDocumentFrom true (demoTasks3 ++ demoTasks3 ++ demoTasks3) 0).saves
        ∧ 3 ≤ j ∧ j < 3 + 5) :=
  ⟨(c4_periodic_save_amended (demoTasks3 ++ demoTasks3 ++ demoTasks3) 0).1 5,
   (c4_periodic_save_amended (demoTasks3 ++ demoTasks3 ++ demoTasks3) 0).2 3
     (by decide) (by decide)⟩

/-- **C6** (corrected): after a run completes a single-task pipeline, the
task is marked `completed = True` but its stored `content` field is still the
empty string — the loop writes the generated text only to the document file
and never assigns `task.content`, so `completed == true` does *not* imply a
non-empty stored content field. -/
theorem c6_completed_empty_content_counterexample :
    ((generateDocumentFrom true [demoTask "Introduction"] 0).tasks[0]?).map
        BlockTask.completed = some true
    ∧ ((generateDocumentFrom true [demoTask "Introduction"] 0).tasks[0]?).map
        BlockTask.content = some "" :=
  ⟨rfl, rfl⟩

/-- **C6** (amended): for every task index processed by the run,
`completed` becomes `true`, the section is appended to the document exactly
once, and the stored `content` field is left exactly as it was (the pipeline
never populates it — the generated text lives only in the output file). -/
theorem c6_completed_appended_once_amended (hasStateFile : Bool)
    (tasks : List BlockTask) (k i : Nat) (hk : k ≤ i) (hn : i < tasks.length) :
    (generateDocumentFrom hasStateFile tasks k).doc.count i = 1
    ∧ ((generateDocumentFrom hasStateFile tasks k).tasks[i]?).map
        BlockTask.completed = some true
    ∧ ((generateDocumentFrom hasStateFile tasks k).tasks[i]?).map
        BlockTask.content = (tasks[i]?).map BlockTask.content := by
  have hdoc : (generateDocumentFrom hasStateFile tasks k).doc = pyRange k tasks.length := by
    rw [generateDocumentFrom, runFold_doc]
    simp
  have htask : (generateDocumentFrom hasStateFile tasks k).tasks[i]? =
      (tasks[i]?).map markCompleted := by
    rw [generateDocumentFrom]
    exact runFold_tasks_range hasStateFile tasks.length (tasks.length - k) k _ i hk (by omega)
  have hsome : tasks[i]? = some tasks[i] := List.getElem?_eq_getElem hn
  refine ⟨?_, ?_, ?_⟩
  · rw [hdoc, pyRange]
    exact List.count_eq_one_of_mem (List.nodup_range' k (tasks.length - k) 1 Nat.one_pos)
      ((List.mem_range'_1).mpr ⟨hk, by omega⟩)
  · rw [htask, hsome]
    rfl
  · rw [htask, hsome]
    rfl

/-- Closed witness for C6 (amended) on a concrete three-task run resumed at
`k = 1`: task 2 is appended once, completed, and its stored content is
unchanged. -/
theorem c6_completed_appended_once_witness :
    (1 : Nat) ≤ 2 ∧ (2 : Nat) < demoTasks3.length
    ∧ (generateDocumentFrom false demoTasks3 1).doc.count 2 = 1
    ∧ ((generateDocumentFrom false demoTasks3 1).tasks[2]?).map
        BlockTask.completed = some true :=
  ⟨by decide, by decide,
   (c6_completed_appended_once_amended false demoTasks3 1 2 (by decide) (by decide)).1,
   (c6_completed_appended_once_amended false demoTasks3 1 2 (by decide) (by decide)).2.1⟩

/-- **C3** (confirmed): whenever the reviewer's model response cannot be
parsed as JSON (`re.search(r"\{.*\}")` finds nothing or `json.loads` raises),
`ReviewTool.review` returns exactly
`{"passed": True, "issues": [], "suggestions": []}` without raising (the model
function is total), and the per-section review-improve loop then breaks
immediately, never invoking the improver and leaving the content unchanged. -/
theorem c3_review_fail_open (reviewOracle : String → String)
    (improveOracle : Json → String → String) (content : String) (maxIterations : Nat)
    (h : reviewParse (reviewOracle content) = none) :
    reviewResult (reviewOracle content) = fallbackReview
    ∧ reviewImproveLoop reviewOracle improveOracle maxIterations content = (content, []) := by
  have hr : reviewResult (reviewOracle content) = fallbackReview := by
    rw [reviewResult, h]
  refine ⟨hr, ?_⟩
  cases maxIterations with
  | zero => rfl
  | succ n =>
    rw [reviewImproveLoop, hr]
    rfl

/-- Closed witness for C3: a reviewer that answers pure prose. -/
theorem c3_review_fail_open_witness :
    reviewParse "Looks good to me, ship it." = none
    ∧ reviewResult "Looks good to me, ship it." = fallbackReview
    ∧ reviewImproveLoop (fun _ => "Looks good to me, ship it.") (fun _ c => c) 2 "## Draft"
        = ("## Draft", []) :=
  ⟨rfl,
   (c3_review_fail_open (fun _ => "Looks good to me, ship it.") (fun _ c => c)
     "## Draft" 2 rfl).1,
   (c3_review_fail_open (fun _ => "Looks good to me, ship it.") (fun _ c => c)
     "## Draft" 2 rfl).2⟩

/-- **C7** (confirmed): `ImproveTool.improve` returns the content unchanged
and issues no model call whenever `feedback.get("passed", True)` is truthy
(including a missing `passed` key), and every feedback value the
orchestrator's review-improve loop ever hands to the improver is one whose
`passed` is falsy. -/
theorem c7_improve_short_circuit (improveOracle : Json → String → String)
    (reviewOracle : String → String) (feedback : Json) (content : String)
    (maxIterations : Nat)
    (hp : pyTruthy (jsonGet feedback "passed" (.bool true)) = true) :
    improveResult improveOracle feedback content = (content, 0)
    ∧ (∀ fb, fb ∈ (reviewImproveLoop reviewOracle improveOracle maxIterations content).2 →
        pyTruthy (jsonGet fb "passed" (.bool true)) = false) := by
  constructor
  · rw [improveResult, if_pos hp]
  · clear hp
    induction maxIterations generalizing content with
    | zero =>
      intro fb hfb
      simp [reviewImproveLoop] at hfb
    | succ n ih =>
      intro fb hfb
      rw [reviewImproveLoop] at hfb
      by_cases hv : pyTruthy (jsonGet (reviewResult (reviewOracle content)) "passed"
          (.bool true)) = true
      · rw [if_pos hv] at hfb
        simp at hfb
      · rw [if_neg hv] at hfb
        simp only [List.mem_cons] at hfb
        rcases hfb with hfb | hfb
        · subst hfb
          exact Bool.not_eq_true _ ▸ (Bool.eq_false_iff.mpr hv)
        · exact ih _ fb hfb

/-- Closed witness for C7: a feedback object with `passed: true` short-circuits
the improver, and a one-iteration loop whose review fails records exactly that
failing feedback as the improver's input. -/
theorem c7_improve_short_circuit_witness :
    pyTruthy (jsonGet (Json.obj [("passed", Json.bool true)]) "passed" (.bool true)) = true
    ∧ improveResult (fun _ c => c ++ " (revised)") (Json.obj [("passed", Json.bool true)])
        "## Section" = ("## Section", 0) :=
  ⟨rfl,
   (c7_improve_short_circuit (fun _ c => c ++ " (revised)") (fun _ => "")
     (Json.obj [("passed", Json.bool true)]) "## Section" 0 rfl).1⟩

/-- **C8** (corrected): `build_generate_section_prompt_with_preferences` — the
prompt builder actually used by the preference-driven CLI path — interpolates
the caller's context string *unmodified*: a 2000-character context is inserted
whole, exceeding every cap (800/500) the sibling builders use. -/
theorem c8_uncapped_context_counterexample :
    generateSectionContextPrefs (List.replicate 2000 'x') = List.replicate 2000 'x'
    ∧ 800 < (List.replicate 2000 'x').length := by
  refine ⟨rfl, ?_⟩
  rw [List.length_replicate]
  omega

/-- **C8** (amended): `build_generate_section_prompt` caps the inserted
context to its trailing 800 characters and the legacy `GenerateTool.generate`
to its trailing 500 (both keep a suffix — the most recent material — and pass
shorter contexts through unchanged), while the with-preferences builder
performs no capping at all. -/
theorem c8_context_caps_amended (context : List Char) :
    (generateSectionContext context).length ≤ 800
    ∧ (∃ pre, pre ++ generateSectionContext context = context)
    ∧ (context.length ≤ 800 → generateSectionContext context = context)
    ∧ (generateSectionContextLegacy context).length ≤ 500
    ∧ (∃ pre, pre ++ generateSectionContextLegacy context = context)
    ∧ (context.length ≤ 500 → generateSectionContextLegacy context = context)
    ∧ generateSectionContextPrefs context = context := by
  refine ⟨?_, ?_, ?_, ?_, ?_, ?_, ?_⟩
  · rw [generateSectionContext]
    split
    · rw [List.length_drop]
      omega
    · omega
  · rw [generateSectionContext]
    split
    · exact ⟨context.take (context.length - 800), List.take_append_drop _ context⟩
    · exact ⟨[], rfl⟩
  · intro h
    rw [generateSectionContext, if_neg (by omega)]
  · rw [generateSectionContextLegacy]
    split
    · rw [List.length_drop]
      omega
    · omega
  · rw [generateSectionContextLegacy]
    split
    · exact ⟨context.take (context.length - 500), List.take_append_drop _ context⟩
    · exact ⟨[], rfl⟩
  · intro h
    rw [generateSectionContextLegacy, if_neg (by omega)]
  · rw [generateSectionContextPrefs]
    split
    · rename_i h
      rw [List.isEmpty_iff] at h
      rw [h]
    · rfl

/-- Closed witness for C8 (amended) at a 1000-character context: the teaching
builder keeps exactly the trailing 800 characters. -/
theorem c8_context_caps_witness :
    (generateSectionContext (List.replicate 1000 'y')).length ≤ 800
    ∧ (∃ pre, pre ++ generateSectionContext (List.replicate 1000 'y')
        = List.replicate 1000 'y')
    ∧ generateSectionContextPrefs (List.replicate 1000 'y') = List.replicate 1000 'y' :=
  ⟨(c8_context_caps_amended (List.replicate 1000 'y')).1,
   (c8_context_caps_amended (List.replicate 1000 'y')).2.1,
   (c8_context_caps_amended (List.replicate 1000 'y')).2.2.2.2.2.2⟩

/-- **C5** (corrected): an LLM outline attempt that *returns* zero sections
does not raise, so the CLI's auto mode keeps the empty list instead of falling
back to numbered parts, and `main` then aborts with exit code 1 — the claimed
"fallback on zero sections, generation continues" behaviour does not happen.
The concrete response decodes to `{"sections": []}`. -/
theorem c5_zero_sections_counterexample :
    createLlmTodoList (.ok "\x7b\"sections\": []\x7d") = .ok []
    ∧ autoModeTasks (createLlmTodoList (.ok "\x7b\"sections\": []\x7d"))
        "Graphs" 10000 none = []
    ∧ autoModeTasks (createLlmTodoList (.ok "\x7b\"sections\": []\x7d"))
        "Graphs" 10000 none ≠ createPartsTodoList "Graphs" 10000 none
    ∧ proceedWithTasks (autoModeTasks (createLlmTodoList (.ok "\x7b\"sections\": []\x7d"))
        "Graphs" 10000 none) = .error () := by
  refine ⟨rfl, rfl, ?_, rfl⟩
  intro h
  have hbad : (0 : Nat) = 66 := by
    calc (0 : Nat)
        = (autoModeTasks (createLlmTodoList (.ok "\x7b\"sections\": []\x7d"))
            "Graphs" 10000 none).length := rfl
      _ = (createPartsTodoList "Graphs" 10000 none).length := congrArg List.length h
      _ = 66 := rfl
  omega

/-- **C5** (amended): when the LLM outline attempt *raises* (transport error,
unextractable or undecodable JSON, bad section entries), auto mode falls back
to the deterministic numbered-parts list, which is never empty, and generation
proceeds; but when the attempt returns an empty section list, auto mode keeps
it and the run aborts with an error instead of falling back. -/
theorem c5_auto_fallback_amended (llmOutcome : Except Unit (List BlockTask))
    (topic : String) (targetLines : Nat) (numParts : Option Nat) :
    ((∃ e, llmOutcome = .error e) →
      autoModeTasks llmOutcome topic targetLines numParts
          = createPartsTodoList topic targetLines numParts
      ∧ createPartsTodoList topic targetLines numParts ≠ []
      ∧ proceedWithTasks (autoModeTasks llmOutcome topic targetLines numParts)
          = .ok (createPartsTodoList topic targetLines numParts))
    ∧ (llmOutcome = .ok [] →
      autoModeTasks llmOutcome topic targetLines numParts = []
      ∧ proceedWithTasks (autoModeTasks llmOutcome topic targetLines numParts)
          = .error ()) := by
  have hne : createPartsTodoList topic targetLines numParts ≠ [] := by
    apply List.ne_nil_of_length_pos
    rw [createPartsTodoList.eq_def]
    cases numParts with
    | none =>
      simp only [pyRange, List.length_map, List.length_range']
      omega
    | some p =>
      simp only [pyRange, List.length_map, List.length_range']
      omega
  constructor
  · rintro ⟨e, he⟩
    subst he
    refine ⟨rfl, hne, ?_⟩
    rw [autoModeTasks, proceedWithTasks, if_neg]
    rw [Bool.not_eq_true, List.isEmpty_eq_false]
    exact hne
  · intro he
    subst he
    exact ⟨rfl, rfl⟩

/-- Closed witness for C5 (amended): a transport failure falls back to the
non-empty parts outline and proceeds; a zero-section outline aborts. -/
theorem c5_auto_fallback_witness :
    autoModeTasks (.error ()) "Graphs" 750 none = createPartsTodoList "Graphs" 750 none
    ∧ createPartsTodoList "Graphs" 750 none ≠ []
    ∧ proceedWithTasks (autoModeTasks (.ok ([] : List BlockTask)) "Graphs" 750 none)
        = .error () :=
  ⟨((c5_auto_fallback_amended (.error ()) "Graphs" 750 none).1 ⟨(), rfl⟩).1,
   ((c5_auto_fallback_amended (.error ()) "Graphs" 750 none).1 ⟨(), rfl⟩).2.1,
   ((c5_auto_fallback_amended (.ok []) "Graphs" 750 none).2 rfl).2⟩

/-! ## Extraction lemmas for the fenced round-trip (C9) -/

theorem getLastMemChar {c : Char} : ∀ {l : List Char}, l.getLast? = some c → c ∈ l := by
  intro l h
  cases l with
  | nil => simp at h
  | cons a t =>
    have hg := List.getLast?_eq_getLast (a :: t) (by simp)
    rw [hg, Option.some.injEq] at h
    have hmem := List.getLast_mem (l := a :: t) (by simp)
    rw [h] at hmem
    exact hmem

theorem isPre_append_self : ∀ (p r : List Char), isPre p (p ++ r) = true
  | [], _ => rfl
  | a :: p, r => by
    simp only [List.cons_append, isPre, Bool.and_eq_true, decide_eq_true_eq]
    exact ⟨trivial, isPre_append_self p r⟩

theorem isPre_of_isPre_append : ∀ (p q s : List Char), isPre (p ++ q) s = true → isPre p s = true
  | [], _, _, _ => rfl
  | a :: p, q, [], h => by simp [isPre] at h
  | a :: p, q, b :: s, h => by
    simp only [List.cons_append, isPre, Bool.and_eq_true] at h ⊢
    exact ⟨h.1, isPre_of_isPre_append p q s h.2⟩

theorem hasSub_tail {pat : List Char} {c : Char} {t : List Char}
    (h : hasSub pat (c :: t) = false) : hasSub pat t = false := by
  rw [hasSub, Bool.or_eq_false_iff] at h
  exact h.2

theorem hasSub_of_suffix_isPre :
    ∀ (w v pat u : List Char), w ++ v = u → isPre pat v = true → hasSub pat u = true
  | [], v, pat, u, hwv, hp => by
    subst hwv
    cases v with
    | nil =>
      show isPre pat [] = true
      exact hp
    | cons a t =>
      show (isPre pat (a :: t) || hasSub pat t) = true
      rw [hp, Bool.true_or]
  | a :: w, v, pat, u, hwv, hp => by
    subst hwv
    show (isPre pat (a :: (w ++ v)) || hasSub pat (w ++ v)) = true
    rw [hasSub_of_suffix_isPre w v pat (w ++ v) rfl hp, Bool.or_true]

theorem dropWhile_ne_nil_of_getLast {p : Char → Bool} {u : List Char} {c : Char}
    (h : u.getLast? = some c) (hc : p c = false) : u.dropWhile p ≠ [] := by
  intro hnil
  have hall := (List.dropWhile_eq_nil_iff).mp hnil
  have := hall c (getLastMemChar h)
  rw [this] at hc
  exact Bool.noConfusion hc

theorem dropWhile_append_ne_nil {p : Char → Bool} :
    ∀ (u r : List Char), u.dropWhile p ≠ [] →
      (u ++ r).dropWhile p = u.dropWhile p ++ r
  | [], _, h => absurd rfl h
  | a :: u, r, h => by
    by_cases hp : p a = true
    · have h2 : u.dropWhile p ≠ [] := by rwa [List.dropWhile_cons_of_pos hp] at h
      rw [List.cons_append, List.dropWhile_cons_of_pos hp, List.dropWhile_cons_of_pos hp]
      exact dropWhile_append_ne_nil u r h2
    · rw [List.cons_append, List.dropWhile_cons_of_neg hp, List.dropWhile_cons_of_neg hp]
      rfl

theorem dropWhile_suffix_exists (p : Char → Bool) :
    ∀ (u : List Char), ∃ w, w ++ u.dropWhile p = u
  | [] => ⟨[], rfl⟩
  | a :: u => by
    by_cases hp : p a = true
    · obtain ⟨w, hw⟩ := dropWhile_suffix_exists p u
      exact ⟨a :: w, by rw [List.dropWhile_cons_of_pos hp, List.cons_append, hw]⟩
    · exact ⟨[], by rw [List.dropWhile_cons_of_neg hp, List.nil_append]⟩

theorem getLast?_dropWhile {p : Char → Bool} {u : List Char}
    (h : u.dropWhile p ≠ []) : (u.dropWhile p).getLast? = u.getLast? := by
  obtain ⟨w, hw⟩ := dropWhile_suffix_exists p u
  conv_rhs => rw [← hw]
  rw [List.getLast?_append_of_ne_nil w h]

theorem fenceFollows_false {u rest : List Char}
    (hlast : u.getLast? = some '}') (hsub : hasSub fence3 u = false) :
    fenceFollows (u ++ '\n' :: '`' :: '`' :: '`' :: rest) = false := by
  have hne : u.dropWhile reWs ≠ [] :=
    dropWhile_ne_nil_of_getLast hlast (by decide)
  rw [fenceFollows, dropWhile_append_ne_nil u _ hne]
  have hvlast : (u.dropWhile reWs).getLast? = some '}' := by
    rw [getLast?_dropWhile hne, hlast]
  obtain ⟨w, hw⟩ := dropWhile_suffix_exists reWs u
  cases hv : u.dropWhile reWs with
  | nil => exact absurd hv hne
  | cons a v1 =>
    rw [hv] at hvlast hw
    cases v1 with
    | nil =>
      have ha : a = '}' := by
        simp only [List.getLast?_singleton, Option.some.injEq] at hvlast
        exact hvlast
      subst ha
      rfl
    | cons b v2 =>
      cases v2 with
      | nil =>
        have hb : b = '}' := by
          simp only [List.getLast?_cons_cons, List.getLast?_singleton,
            Option.some.injEq] at hvlast
          exact hvlast
        subst hb
        show (isPre fence3 (a :: '}' :: rest)) = false
        simp only [fence3, isPre]
        rw [show (decide (('`' : Char) = '}')) = false from rfl]
        rw [Bool.false_and, Bool.and_false]
      | cons c v3 =>
        cases hpre : isPre fence3 ((a :: b :: c :: v3) ++ '\n' :: '`' :: '`' :: '`' :: rest) with
        | false => rfl
        | true =>
          exfalso
          have habc : a = '`' ∧ b = '`' ∧ c = '`' := by
            simp only [List.cons_append, fence3, isPre, Bool.and_eq_true,
              decide_eq_true_eq] at hpre
            exact ⟨hpre.1.symm, hpre.2.1.symm, hpre.2.2.1.symm⟩
          have hpv : isPre fence3 (a :: b :: c :: v3) = true := by
            obtain ⟨h1, h2, h3⟩ := habc
            subst h1; subst h2; subst h3
            rfl
          have := hasSub_of_suffix_isPre w (a :: b :: c :: v3) fence3 u hw hpv
          rw [this] at hsub
          exact Bool.noConfusion hsub

theorem grabGroup_through :
    ∀ (t acc rest : List Char), t.getLast? = some '}' → hasSub fence3 t = false →
      grabGroup acc (t ++ '\n' :: '`' :: '`' :: '`' :: rest) = some (acc.reverse ++ t)
  | [], _, _, hl, _ => by simp at hl
  | [a], acc, rest, hl, _ => by
    have ha : a = '}' := by
      simp only [List.getLast?_singleton, Option.some.injEq] at hl
      exact hl
    subst ha
    show grabGroup acc ('}' :: '\n' :: '`' :: '`' :: '`' :: rest) = some (acc.reverse ++ ['}'])
    rw [grabGroup, if_pos ⟨rfl, rfl⟩]
  | a :: b :: t, acc, rest, hl, hsub => by
    have hl2 : (b :: t).getLast? = some '}' := by
      rw [← List.getLast?_cons_cons (a := a)]
      exact hl
    have hsub2 : hasSub fence3 (b :: t) = false := hasSub_tail hsub
    have hstep : grabGroup acc ((a :: b :: t) ++ '\n' :: '`' :: '`' :: '`' :: rest)
        = grabGroup (a :: acc) ((b :: t) ++ '\n' :: '`' :: '`' :: '`' :: rest) := by
      rw [List.cons_append, grabGroup, if_neg]
      rintro ⟨ha, hff⟩
      rw [fenceFollows_false hl2 hsub2] at hff
      exact Bool.noConfusion hff
    rw [hstep, grabGroup_through (b :: t) (a :: acc) rest hl2 hsub2,
      List.reverse_cons, List.append_assoc]
    rfl

theorem findFencedJson_cons (c : Char) (t : List Char) :
    findFencedJson (c :: t) =
      if isPre fenceJson7 (c :: t) then
        match tryFenceAnchor ((c :: t).drop 7) with
        | some g => some g
        | none => findFencedJson t
      else findFencedJson t := rfl

theorem findFencedJson_append {p1 : List Char} (r : List Char) (hp1 : '`' ∉ p1) :
    findFencedJson (p1 ++ r) = findFencedJson r := by
  induction p1 with
  | nil => rfl
  | cons c p ih =>
    have hc : ¬('`' : Char) = c := fun h => hp1 (by rw [h]; exact List.mem_cons_self c p)
    rw [List.cons_append, findFencedJson_cons, if_neg, ih (fun h => hp1 (List.mem_cons_of_mem c h))]
    intro hpre
    simp only [fenceJson7, isPre, Bool.and_eq_true, decide_eq_true_eq] at hpre
    exact hc hpre.1

theorem findFencedJson_none {s : List Char} (h : hasSub fence3 s = false) :
    findFencedJson s = none := by
  induction s with
  | nil => rfl
  | cons c t ih =>
    have hpre : isPre fenceJson7 (c :: t) = false := by
      cases hp : isPre fenceJson7 (c :: t) with
      | false => rfl
      | true =>
        exfalso
        have h3 : isPre fence3 (c :: t) = true :=
          isPre_of_isPre_append fence3 ['j', 's', 'o', 'n'] (c :: t) hp
        have hs : hasSub fence3 (c :: t) = true := by
          show (isPre fence3 (c :: t) || hasSub fence3 t) = true
          rw [h3, Bool.true_or]
        rw [hs] at h
        exact Bool.noConfusion h
    rw [findFencedJson_cons, if_neg (by rw [hpre]; exact Bool.noConfusion)]
    exact ih (hasSub_tail h)

theorem braceSpan_self {Jtl : List Char} (hl : Jtl.getLast? = some '}') :
    braceSpan ('{' :: Jtl) = some ('{' :: Jtl) := by
  have hne : Jtl ≠ [] := by
    intro h
    rw [h] at hl
    simp at hl
  have hgl : Jtl.getLast hne = '}' := by
    have hg := List.getLast?_eq_getLast Jtl hne
    rw [hl, Option.some.injEq] at hg
    exact hg.symm
  have hJ : Jtl.dropLast ++ ['}'] = Jtl := by
    rw [← hgl]
    exact List.dropLast_append_getLast hne
  have hrev : Jtl.reverse = '}' :: Jtl.dropLast.reverse := by
    rw [← hJ]
    simp
  have hdw : Jtl.reverse.dropWhile (fun c => ¬(c = '}')) = '}' :: Jtl.dropLast.reverse := by
    rw [hrev, List.dropWhile_cons_of_neg (by simp)]
  show (if ('{' : Char) = '{' then
      match takeToLastRBrace Jtl with
      | some pre => some ('{' :: pre)
      | none => braceSpan Jtl
    else braceSpan Jtl) = some ('{' :: Jtl)
  rw [if_pos rfl]
  have htk : takeToLastRBrace Jtl = some Jtl := by
    rw [takeToLastRBrace, hdw]
    have : ('}' :: Jtl.dropLast.reverse).reverse = Jtl := by
      rw [List.reverse_cons, List.reverse_reverse, hJ]
    simp only [this]
  rw [htk]

theorem findFencedJson_wrapped (Jtl p1 p2 : List Char)
    (hlast : Jtl.getLast? = some '}')
    (hnofence : hasSub fence3 ('{' :: Jtl) = false)
    (hp1 : '`' ∉ p1) :
    findFencedJson (p1 ++ fenceOpen ++ ('{' :: Jtl) ++ fenceClose ++ p2)
      = some ('{' :: Jtl) := by
  have hassoc : p1 ++ fenceOpen ++ ('{' :: Jtl) ++ fenceClose ++ p2
      = p1 ++ (fenceOpen ++ (('{' :: Jtl) ++ (fenceClose ++ p2))) := by
    simp [List.append_assoc]
  rw [hassoc, findFencedJson_append _ hp1]
  show findFencedJson
      ('`' :: '`' :: '`' :: 'j' :: 's' :: 'o' :: 'n' :: '\n'
        :: (('{' :: Jtl) ++ ('\n' :: '`' :: '`' :: '`' :: p2))) = some ('{' :: Jtl)
  rw [findFencedJson_cons, if_pos]
  · have hdrop : (('`' :: '`' :: '`' :: 'j' :: 's' :: 'o' :: 'n' :: '\n'
        :: (('{' :: Jtl) ++ ('\n' :: '`' :: '`' :: '`' :: p2))) : List Char).drop 7
        = '\n' :: (('{' :: Jtl) ++ ('\n' :: '`' :: '`' :: '`' :: p2)) := rfl
    rw [hdrop]
    have hanchor : tryFenceAnchor ('\n' :: (('{' :: Jtl) ++ ('\n' :: '`' :: '`' :: '`' :: p2)))
        = some ('{' :: Jtl) := by
      show (match ('\n' :: (('{' :: Jtl) ++ ('\n' :: '`' :: '`' :: '`' :: p2))).dropWhile reWs with
        | '{' :: rest => grabGroup ['{'] rest
        | _ => none) = some ('{' :: Jtl)
      have hdw : ('\n' :: (('{' :: Jtl) ++ ('\n' :: '`' :: '`' :: '`' :: p2))).dropWhile reWs
          = '{' :: (Jtl ++ ('\n' :: '`' :: '`' :: '`' :: p2)) := rfl
      rw [hdw]
      exact grabGroup_through Jtl ['{'] p2 hlast (hasSub_tail hnofence)
    rw [hanchor]
  · exact of_decide_eq_true (by rfl)

/-- **C9** (corrected): the non-greedy fenced-block pattern
``` ```json\s*\n?(\{.*?\})\s*``` ``` ends the captured group at the *first*
`}` that is followed by ``` ``` ```, so an outline JSON object whose text
itself contains ``` ``` ``` right after a `}` (here inside the title string
`"a}```b"`) is truncated when wrapped in a fenced code block:
`create_todo_list` raises on the truncated JSON, while the same object given
raw parses to one task.  The round-trip claim fails for this valid outline
object. -/
theorem c9_roundtrip_counterexample :
    createTodoListFromResponse
        ("Here is the outline:\n```json\n\x7b\"sections\": [\x7b\"title\": \"a\x7d```b\"\x7d]\x7d\n```\nHope this helps.").data
      = .error ()
    ∧ createTodoListFromResponse
        ("\x7b\"sections\": [\x7b\"title\": \"a\x7d```b\"\x7d]\x7d").data
      = .ok [{ title := Json.str "a\x7d```b" }]
    ∧ (jsonLoads (pyReplaceNl ("\x7b\"sections\": [\x7b\"title\": \"a\x7d```b\"\x7d]\x7d").data)).isSome = true
    ∧ createTodoListFromResponse
        ("Here is the outline:\n```json\n\x7b\"sections\": [\x7b\"title\": \"a\x7d```b\"\x7d]\x7d\n```\nHope this helps.").data
      ≠ createTodoListFromResponse
        ("\x7b\"sections\": [\x7b\"title\": \"a\x7d```b\"\x7d]\x7d").data := by
  refine ⟨rfl, rfl, rfl, ?_⟩
  intro h
  rw [show createTodoListFromResponse
        ("Here is the outline:\n```json\n\x7b\"sections\": [\x7b\"title\": \"a\x7d```b\"\x7d]\x7d\n```\nHope this helps.").data
      = .error () from rfl] at h
  rw [show createTodoListFromResponse
        ("\x7b\"sections\": [\x7b\"title\": \"a\x7d```b\"\x7d]\x7d").data
      = .ok [{ title := Json.str "a\x7d```b" }] from rfl] at h
  exact Except.noConfusion h

/-- **C9** (amended): for a valid outline JSON object text `{Jtl` (starting
with `{`, ending with `}`) that contains no triple-backtick run, wrapped as
leading prose (itself backtick-free) + ```` ```json ```` fence + the object +
closing fence + arbitrary trailing prose, `create_todo_list` extracts exactly
the object text and yields the same task list as when given the raw object
alone. -/
theorem c9_roundtrip_amended (Jtl p1 p2 : List Char)
    (hlast : Jtl.getLast? = some '}')
    (hnofence : hasSub fence3 ('{' :: Jtl) = false)
    (hp1 : '`' ∉ p1)
    (_hvalid : (jsonLoads (pyReplaceNl ('{' :: Jtl))).isSome = true) :
    createTodoListFromResponse (p1 ++ fenceOpen ++ ('{' :: Jtl) ++ fenceClose ++ p2)
      = createTodoListFromResponse ('{' :: Jtl) := by
  have h1 := findFencedJson_wrapped Jtl p1 p2 hlast hnofence hp1
  have h2 := findFencedJson_none hnofence
  have h3 := braceSpan_self hlast
  simp only [createTodoListFromResponse, h1, h2, h3]

/-- Closed witness for C9 (amended): a well-behaved outline object wrapped in
prose and fences parses identically to the raw object (one task). -/
theorem c9_roundtrip_witness :
    ("\"sections\": [\x7b\"title\": \"Intro\", \"level\": 1\x7d]\x7d").data.getLast? = some '}'
    ∧ hasSub fence3 ('{' :: ("\"sections\": [\x7b\"title\": \"Intro\", \"level\": 1\x7d]\x7d").data) = false
    ∧ ('`' ∉ ("Sure! ").data)
    ∧ createTodoListFromResponse
        (("Sure! ").data ++ fenceOpen
          ++ ('{' :: ("\"sections\": [\x7b\"title\": \"Intro\", \"level\": 1\x7d]\x7d").data)
          ++ fenceClose ++ (" done").data)
      = createTodoListFromResponse
        ('{' :: ("\"sections\": [\x7b\"title\": \"Intro\", \"level\": 1\x7d]\x7d").data) :=
  ⟨rfl, rfl, by decide,
   c9_roundtrip_amended
     ("\"sections\": [\x7b\"title\": \"Intro\", \"level\": 1\x7d]\x7d").data
     ("Sure! ").data (" done").data rfl rfl (by decide) rfl⟩
